import Mathlib

/-!
Verification of the `engine` crate of `grandafrato/plotter`, a geometry
kernel for a polar plotting mechanism (src/engine/src/lib.rs).

The crate computes over `f32`.  We model an `f32` value as an exact
magnitude/sign-bit pair over `ℝ`, together with the IEEE special values
`inf` and `nan`; arithmetic follows the IEEE 754 rules for signs, zeros,
NaN propagation and division by zero, but magnitudes are kept exact
(no rounding), and the transcendental helpers of `micromath`
(`atan2`, and the `sqrt` inside `hypot`) are modelled by their exact
mathematical counterparts rather than by micromath's polynomial
approximations.
-/

noncomputable section

open Classical

/-- Model of an `f32` value: a finite magnitude with an IEEE sign bit
(`fin 0 true` is `-0.0`), a signed infinity, or `nan`. -/
inductive F where
  | fin (m : ℝ) (s : Bool)
  | inf (s : Bool)
  | nan
deriving DecidableEq

namespace F

/-- The real number a finite value denotes (`inf` and `nan` denote no real
number; they are mapped to a junk value never used by the operations). -/
def toReal : F → ℝ
  | fin m s => if s then -m else m
  | inf _ => 0
  | nan => 0

/-- Re-encode a real number as a model value (used by the exact
transcendental helpers; never produces `-0.0`). -/
def ofReal (r : ℝ) : F :=
  fin |r| (if r < 0 then true else false)

/-- Rust `f32::is_sign_negative`: the IEEE sign bit. -/
def isNeg : F → Bool
  | fin _ s => s
  | inf s => s
  | nan => false

/-- IEEE negation: flip the sign bit. -/
def neg : F → F
  | fin m s => fin m (!s)
  | inf s => inf (!s)
  | nan => nan

/-- IEEE addition with exact magnitudes: NaN propagates, opposite
infinities give NaN, an exact zero sum is `-0.0` only when both addends
are `-0.0`. -/
def add : F → F → F
  | nan, _ => nan
  | _, nan => nan
  | inf s, inf t => if s = t then inf s else nan
  | inf s, fin _ _ => inf s
  | fin _ _, inf t => inf t
  | fin m s, fin n t =>
    if (fin m s).toReal + (fin n t).toReal = 0 then
      (if m = 0 ∧ n = 0 then fin 0 (s && t) else fin 0 false)
    else
      fin |(fin m s).toReal + (fin n t).toReal|
        (if (fin m s).toReal + (fin n t).toReal < 0 then true else false)

/-- IEEE subtraction: `a - b = a + (-b)`. -/
def sub (a b : F) : F := a.add b.neg

/-- IEEE multiplication with exact magnitudes: the sign bit is the XOR of
the operands' sign bits; `0 * inf` is NaN. -/
def mul : F → F → F
  | nan, _ => nan
  | _, nan => nan
  | inf s, inf t => inf (Bool.xor s t)
  | inf s, fin n t => if n = 0 then nan else inf (Bool.xor s t)
  | fin m s, inf t => if m = 0 then nan else inf (Bool.xor s t)
  | fin m s, fin n t => fin (m * n) (Bool.xor s t)

/-- IEEE division with exact magnitudes: `0 / 0` and `inf / inf` are NaN,
a nonzero magnitude divided by zero is a signed infinity. -/
def div : F → F → F
  | nan, _ => nan
  | _, nan => nan
  | inf _, inf _ => nan
  | inf s, fin _ t => inf (Bool.xor s t)
  | fin _ s, inf t => fin 0 (Bool.xor s t)
  | fin m s, fin n t =>
    if n = 0 then (if m = 0 then nan else inf (Bool.xor s t))
    else fin (m / n) (Bool.xor s t)

/-- Rust `f32::abs`: clear the sign bit. -/
def abs : F → F
  | fin m _ => fin m false
  | inf _ => inf false
  | nan => nan

/-- Rust `f32::powi(2)`, computed as a self-multiplication. -/
def powi2 (a : F) : F := a.mul a

/-- Rust `f32::sqrt` (micromath): NaN for negative values, `-0.0` maps to
`-0.0`, exact square root for nonnegative finite values. -/
def sqrt : F → F
  | nan => nan
  | inf s => if s then nan else inf false
  | fin m s =>
    if m = 0 then fin 0 s
    else if s then nan else fin (Real.sqrt m) false

/-- Rust `f32::hypot` (micromath): `(self * self + rhs * rhs).sqrt()`. -/
def hypot (a b : F) : F := (add (a.mul a) (b.mul b)).sqrt

/-- IEEE strict order: NaN compares false with everything, `-0.0 == 0.0`
numerically. -/
def lt : F → F → Prop
  | nan, _ => False
  | _, nan => False
  | inf s, inf t => s = true ∧ t = false
  | inf s, fin _ _ => s = true
  | fin _ _, inf t => t = false
  | fin m s, fin n t => (fin m s).toReal < (fin n t).toReal

/-- IEEE non-strict order: NaN compares false with everything. -/
def le : F → F → Prop
  | nan, _ => False
  | _, nan => False
  | inf s, inf t => t = false ∨ s = true
  | inf s, fin _ _ => s = true
  | fin _ _, inf t => t = false
  | fin m s, fin n t => (fin m s).toReal ≤ (fin n t).toReal

/-- IEEE `>`, as Rust's `a > b`. -/
def gt (a b : F) : Prop := lt b a

/-- Exact two-argument arctangent over the reals, range `(-π, π]`. -/
def realAtan2 (y x : ℝ) : ℝ :=
  if 0 < x then Real.arctan (y / x)
  else if x < 0 then
    (if 0 ≤ y then Real.arctan (y / x) + Real.pi
     else Real.arctan (y / x) - Real.pi)
  else
    (if 0 < y then Real.pi / 2 else if y < 0 then -(Real.pi / 2) else 0)

/-- Rust `f32::atan2` (micromath's approximation, modelled exactly): NaN
propagates; otherwise the exact mathematical `atan2` of the denoted
values. -/
def atan2 : F → F → F
  | nan, _ => nan
  | _, nan => nan
  | y, x => ofReal (realAtan2 y.toReal x.toReal)

/-- Rust `f32::to_degrees`: multiplication by `180 / π`. -/
def toDegrees (a : F) : F := a.mul (fin (180 / Real.pi) false)

end F

/-- Rust `MIN_RADIUS: f32 = 14.0`. -/
def MIN_RADIUS : F := F.fin 14 false

/-- Rust `MAX_RADIUS: f32 = 31.0`. -/
def MAX_RADIUS : F := F.fin 31 false

/-- Rust `PointCartesian { x: f32, y: f32 }`. -/
structure PointCartesian where
  x : F
  y : F
deriving DecidableEq

/-- Rust `PointCartesian::new`. -/
def PointCartesian.new (x y : F) : PointCartesian := ⟨x, y⟩

/-- Rust `PointPolar { radius: f32, theta: f32 }`. -/
structure PointPolar where
  radius : F
  theta : F
deriving DecidableEq

/-- Rust `OutOfBoundsError`. -/
inductive OutOfBoundsError where
  | BelowMinimumRadius (radius theta : F)
  | AboveMaximumRadius (radius theta : F)
  | CrossesRotationMax
  | CrossesDeadZone (distance : F)
deriving DecidableEq

/-- Rust `PointPolar::try_new`: reject a radius above `MAX_RADIUS`, then a
radius below `MIN_RADIUS`, otherwise accept. -/
def PointPolar.try_new (radius theta : F) : Except OutOfBoundsError PointPolar :=
  if radius.gt MAX_RADIUS then
    .error (.AboveMaximumRadius radius theta)
  else if radius.lt MIN_RADIUS then
    .error (.BelowMinimumRadius radius theta)
  else
    .ok ⟨radius, theta⟩

/-- Rust `PointCartesian::as_polar`: `radius = x.hypot(y)`,
`theta = y.atan2(x)`, then delegate to `PointPolar::try_new`. -/
def PointCartesian.as_polar (p : PointCartesian) : Except OutOfBoundsError PointPolar :=
  PointPolar.try_new (p.x.hypot p.y) (p.y.atan2 p.x)

/-- Rust `Rotation`: a full revolution or a terminal angle. -/
inductive Rotation where
  | Full
  | Partial (angle : F)
deriving DecidableEq

/-- Rust `Shape`: a center arc or a polygon (a pure data holder). -/
inductive Shape where
  | Arc (point : PointPolar) (rotation : Rotation)
  | Polygon (points : List PointCartesian)
deriving DecidableEq

/-- Rust `Shape::circle`: an arc at `theta = 0` with a full rotation. -/
def Shape.circle (radius : F) : Except OutOfBoundsError Shape :=
  match PointPolar.try_new radius (F.fin 0 false) with
  | .error e => .error e
  | .ok point => .ok (Shape.Arc point Rotation.Full)

/-- Rust `Shape::arc`: `angle = (arc_length / point.radius).to_degrees() +
point.theta`, rejected with `CrossesRotationMax` when `angle > 360.0`. -/
def Shape.arc (point : PointPolar) (arc_length : F) : Except OutOfBoundsError Shape :=
  let angle := ((arc_length.div point.radius).toDegrees).add point.theta
  if angle.gt (F.fin 360 false) then
    .error .CrossesRotationMax
  else
    .ok (Shape.Arc point (Rotation.Partial angle))

/-- Rust `Segment(PointCartesian, PointCartesian)`. -/
structure Segment where
  a : PointCartesian
  b : PointCartesian
deriving DecidableEq

/-- Rust `Segment::check_rotation_max`: fail with `CrossesRotationMax` when
neither endpoint's `x` has a negative sign bit and the endpoints' `y`
sign bits differ. -/
def Segment.check_rotation_max (s : Segment) : Except OutOfBoundsError Segment :=
  if !s.a.x.isNeg && !s.b.x.isNeg then
    if Bool.xor s.a.y.isNeg s.b.y.isNeg then
      .error .CrossesRotationMax
    else
      .ok s
  else
    .ok s

/-- The distance computed by `Segment::check_dead_zone`:
`((a.x - b.x) * a.y + (b.y - a.y) * a.x).abs()
  / ((b.x - a.x).powi(2) + (a.y - b.y).powi(2)).sqrt()`. -/
def Segment.deadZoneDistance (s : Segment) : F :=
  (((s.a.x.sub s.b.x).mul s.a.y).add ((s.b.y.sub s.a.y).mul s.a.x)).abs.div
    (((s.b.x.sub s.a.x).powi2.add ((s.a.y.sub s.b.y).powi2)).sqrt)

/-- Rust `Segment::check_dead_zone`: fail with `CrossesDeadZone(distance)` when
the perpendicular distance from the origin to the infinite line through
the endpoints is below `MIN_RADIUS`. -/
def Segment.check_dead_zone (s : Segment) : Except OutOfBoundsError Segment :=
  let distance := s.deadZoneDistance
  if distance.lt MIN_RADIUS then
    .error (.CrossesDeadZone distance)
  else
    .ok s

/-- Rust `Segment::try_new`: the rotation-max check, then (on success) the
dead-zone check. -/
def Segment.try_new (point_a point_b : PointCartesian) : Except OutOfBoundsError Segment :=
  match (Segment.mk point_a point_b).check_rotation_max with
  | .error e => .error e
  | .ok s => s.check_dead_zone

/-- Modelled from the spec: the Euclidean length of a segment (§4.4's
`segment_length`, "Euclidean distance between endpoints").  `Segment::step`
and its length computation are described in §4.4 but absent from
src/engine; the spec speaks exact real arithmetic, so this model reads the
coordinates' denoted real values. -/
def Segment.length (s : Segment) : ℝ :=
  Real.sqrt ((s.a.x.toReal - s.b.x.toReal) ^ 2 + (s.a.y.toReal - s.b.y.toReal) ^ 2)

/-- Modelled from the spec: the polar form of a Cartesian point used by
§4.4 — `radius = hypot(x, y)`, `theta = atan2(y, x)` (the computation of
§4.1), with the conversion assumed to succeed as §4.4 states ("the
conversion of the interpolated point is assumed always to succeed"). -/
def PointCartesian.polarForm (p : PointCartesian) : PointPolar :=
  ⟨F.ofReal (Real.sqrt (p.x.toReal ^ 2 + p.y.toReal ^ 2)),
   F.ofReal (F.realAtan2 p.y.toReal p.x.toReal)⟩

/-- Modelled from the spec: `Segment::step(distance)` (§4.4), absent from
src/engine.  `None` when `distance` is outside `[0, segment_length]`;
otherwise the linear Cartesian interpolation
`x = x_a - distance * (x_a - x_b) / length`,
`y = y_a - distance * (y_a - y_b) / length`, converted to polar. -/
def Segment.step (s : Segment) (distance : ℝ) : Option PointPolar :=
  if 0 ≤ distance ∧ distance ≤ s.length then
    some (PointCartesian.polarForm
      ⟨F.ofReal (s.a.x.toReal - distance * (s.a.x.toReal - s.b.x.toReal) / s.length),
       F.ofReal (s.a.y.toReal - distance * (s.a.y.toReal - s.b.y.toReal) / s.length)⟩)
  else
    none

/-!
Helper lemmas: evaluation rules for the float model, used to run the
embedded definitions on concrete inputs and to reason by cases on the
IEEE special values.
-/

lemma real_sqrt_eval {x y : ℝ} (hy : 0 ≤ y) (h : y ^ 2 = x) : Real.sqrt x = y := by
  rw [← h, Real.sqrt_sq hy]

namespace F

@[simp] lemma toReal_fin_false (m : ℝ) : (F.fin m false).toReal = m := rfl

@[simp] lemma toReal_fin_true (m : ℝ) : (F.fin m true).toReal = -m := rfl

@[simp] lemma toReal_ofReal (r : ℝ) : (F.ofReal r).toReal = r := by
  rw [F.ofReal]
  by_cases h : r < 0
  · simp [toReal, h, abs_of_neg h]
  · simp [toReal, h, abs_of_nonneg (not_lt.mp h)]

lemma add_fin_of_pos {m n r : ℝ} {s t : Bool}
    (h : (F.fin m s).toReal + (F.fin n t).toReal = r) (hr : 0 < r) :
    F.add (F.fin m s) (F.fin n t) = F.fin r false := by
  rw [F.add, h, if_neg hr.ne', abs_of_pos hr, if_neg (not_lt.mpr hr.le)]

lemma add_fin_of_neg {m n r : ℝ} {s t : Bool}
    (h : (F.fin m s).toReal + (F.fin n t).toReal = -r) (hr : 0 < r) :
    F.add (F.fin m s) (F.fin n t) = F.fin r true := by
  have hne : (F.fin m s).toReal + (F.fin n t).toReal ≠ 0 := by
    rw [h]; simpa using hr.ne'
  rw [F.add, if_neg hne, h, abs_of_neg (by simpa using hr), if_pos (by simpa using hr)]
  simp

/-- Subtracting a finite value from itself gives `+0.0` (also when both
are zeros of any signs). -/
lemma sub_self_fin (m : ℝ) (s : Bool) : F.sub (F.fin m s) (F.fin m s) = F.fin 0 false := by
  rw [F.sub, F.neg, F.add]
  have h : (F.fin m s).toReal + (F.fin m (!s)).toReal = 0 := by
    cases s <;> simp [toReal]
  rw [if_pos h]
  by_cases hm : m = 0
  · simp [hm]
  · simp [hm]

lemma div_fin_of_ne {m n : ℝ} {s t : Bool} (hn : n ≠ 0) :
    F.div (F.fin m s) (F.fin n t) = F.fin (m / n) (Bool.xor s t) := by
  rw [F.div, if_neg hn]

lemma sqrt_fin_of_pos {m r : ℝ} (hm : 0 < m) (h : Real.sqrt m = r) :
    F.sqrt (F.fin m false) = F.fin r false := by
  rw [F.sqrt, if_neg hm.ne', if_neg (by simp), h]

lemma gt_fin_fin {m n : ℝ} {s t : Bool} :
    F.gt (F.fin m s) (F.fin n t) ↔ (F.fin n t).toReal < (F.fin m s).toReal := by
  rw [F.gt, F.lt]

lemma lt_fin_fin {m n : ℝ} {s t : Bool} :
    F.lt (F.fin m s) (F.fin n t) ↔ (F.fin m s).toReal < (F.fin n t).toReal := by
  rw [F.lt]

@[simp] lemma add_nan_left (b : F) : F.add F.nan b = F.nan := by
  cases b <;> rfl

@[simp] lemma add_nan_right (a : F) : F.add a F.nan = F.nan := by
  cases a <;> rfl

@[simp] lemma mul_nan_left (b : F) : F.mul F.nan b = F.nan := by
  cases b <;> rfl

@[simp] lemma mul_nan_right (a : F) : F.mul a F.nan = F.nan := by
  cases a <;> rfl

@[simp] lemma nan_isNeg : F.nan.isNeg = false := rfl

@[simp] lemma lt_nan_left (b : F) : ¬ F.lt F.nan b := by
  cases b <;> simp [F.lt]

@[simp] lemma lt_nan_right (a : F) : ¬ F.lt a F.nan := by
  cases a <;> simp [F.lt]

@[simp] lemma le_nan_left (b : F) : ¬ F.le F.nan b := by
  cases b <;> simp [F.le]

@[simp] lemma le_nan_right (a : F) : ¬ F.le a F.nan := by
  cases a <;> simp [F.le]

end F

@[simp] lemma F.sub_self_inf (s : Bool) : F.sub (F.inf s) (F.inf s) = F.nan := by
  cases s <;> rfl

@[simp] lemma F.sub_self_nan : F.sub F.nan F.nan = F.nan := rfl

/-- Case split: `check_rotation_max` either passes the segment through unchanged or
fails with `CrossesRotationMax`. -/
lemma check_rotation_max_cases (s : Segment) :
    s.check_rotation_max = .ok s ∨ s.check_rotation_max = .error .CrossesRotationMax := by
  rw [Segment.check_rotation_max]
  by_cases h1 : (!s.a.x.isNeg && !s.b.x.isNeg) = true <;>
    by_cases h2 : (Bool.xor s.a.y.isNeg s.b.y.isNeg) = true <;> simp [h1, h2]

/-- When the rotation-max check passes, `try_new` is the dead-zone check. -/
lemma try_new_of_rot_ok {a b : PointCartesian}
    (h : (Segment.mk a b).check_rotation_max = .ok (Segment.mk a b)) :
    Segment.try_new a b = (Segment.mk a b).check_dead_zone := by
  rw [Segment.try_new, h]

/-- Unfolding: `check_dead_zone`, written as a comparison of `deadZoneDistance`. -/
lemma check_dead_zone_eq (s : Segment) :
    s.check_dead_zone = (if (s.deadZoneDistance).lt MIN_RADIUS then
      .error (.CrossesDeadZone s.deadZoneDistance) else .ok s) := rfl

/-- For a non-NaN value, passing both of `try_new`'s comparisons is the
same as lying within `[MIN_RADIUS, MAX_RADIUS]`. -/
lemma bounds_iff (r : F) (h : r ≠ F.nan) :
    (¬ F.gt r MAX_RADIUS ∧ ¬ F.lt r MIN_RADIUS) ↔
      (F.le MIN_RADIUS r ∧ F.le r MAX_RADIUS) := by
  cases r with
  | nan => exact absurd rfl h
  | fin m s =>
    simp only [MIN_RADIUS, MAX_RADIUS, F.gt, F.lt, F.le, F.toReal_fin_false, not_lt]
    exact and_comm
  | inf s => cases s <;> simp [F.gt, F.lt, F.le, MIN_RADIUS, MAX_RADIUS]

/-- Characterization of a successful `PointPolar::try_new`. -/
lemma try_new_ok_iff (radius theta : F) (p : PointPolar) :
    PointPolar.try_new radius theta = .ok p ↔
      (¬ F.gt radius MAX_RADIUS ∧ ¬ F.lt radius MIN_RADIUS ∧ p = ⟨radius, theta⟩) := by
  rw [PointPolar.try_new]
  by_cases hgt : F.gt radius MAX_RADIUS
  · rw [if_pos hgt]; simp [hgt]
  · rw [if_neg hgt]
    by_cases hlt : F.lt radius MIN_RADIUS
    · rw [if_pos hlt]; simp [hgt, hlt]
    · rw [if_neg hlt]
      simp [hgt, hlt, eq_comm]

/-- Congruence: `polarForm` only depends on the denoted real coordinates. -/
lemma polarForm_congr {p q : PointCartesian} (hx : p.x.toReal = q.x.toReal)
    (hy : p.y.toReal = q.y.toReal) : p.polarForm = q.polarForm := by
  rw [PointCartesian.polarForm, PointCartesian.polarForm, hx, hy]

/-- C1: on a validated segment, `step` returns a point for every distance
in `[0, segment_length]` and `none` outside it; `step 0` is exactly the
polar form of the first endpoint and `step segment_length` exactly the
polar form of the second (`Segment::step` modelled from §4.4 of the
spec). -/
theorem c1_segment_step (a b : PointCartesian) (s : Segment)
    (_hvalid : Segment.try_new a b = .ok s) :
    (∀ d : ℝ, 0 ≤ d → d ≤ s.length → (s.step d).isSome = true) ∧
    (∀ d : ℝ, ¬ (0 ≤ d ∧ d ≤ s.length) → s.step d = none) ∧
    s.step 0 = some s.a.polarForm ∧
    s.step s.length = some s.b.polarForm := by
  have h0L : (0:ℝ) ≤ s.length := Real.sqrt_nonneg _
  refine ⟨?_, ?_, ?_, ?_⟩
  · intro d h0 hL
    rw [Segment.step, if_pos ⟨h0, hL⟩]
    rfl
  · intro d hd
    rw [Segment.step, if_neg hd]
  · rw [Segment.step, if_pos ⟨le_refl 0, h0L⟩]
    congr 1
    apply polarForm_congr <;> simp
  · rw [Segment.step, if_pos ⟨h0L, le_refl s.length⟩]
    congr 1
    by_cases hL : s.length = 0
    · have hsum : (s.a.x.toReal - s.b.x.toReal) ^ 2 + (s.a.y.toReal - s.b.y.toReal) ^ 2 = 0 := by
        have hle := (Real.sqrt_eq_zero' ).mp (by rw [← Segment.length, hL])
        nlinarith [sq_nonneg (s.a.x.toReal - s.b.x.toReal), sq_nonneg (s.a.y.toReal - s.b.y.toReal)]
      have hdx : s.a.x.toReal - s.b.x.toReal = 0 := by
        nlinarith [sq_nonneg (s.a.x.toReal - s.b.x.toReal), sq_nonneg (s.a.y.toReal - s.b.y.toReal)]
      have hdy : s.a.y.toReal - s.b.y.toReal = 0 := by
        nlinarith [sq_nonneg (s.a.x.toReal - s.b.x.toReal), sq_nonneg (s.a.y.toReal - s.b.y.toReal)]
      apply polarForm_congr <;> simp [hdx, hdy, hL] <;> linarith
    · have hx : s.a.x.toReal - s.length * (s.a.x.toReal - s.b.x.toReal) / s.length
          = s.b.x.toReal := by
        rw [mul_div_cancel_left₀ _ hL]; ring
      have hy : s.a.y.toReal - s.length * (s.a.y.toReal - s.b.y.toReal) / s.length
          = s.b.y.toReal := by
        rw [mul_div_cancel_left₀ _ hL]; ring
      apply polarForm_congr <;> simp [hx, hy]

/-- C1 witness: the validated vertical segment from `(15, 0)` to
`(15, 10)` steps to its first endpoint's polar form at distance `0` and
to nothing at distance `-1`. -/
theorem c1_segment_step_witness :
    Segment.step ⟨⟨F.fin 15 false, F.fin 0 false⟩, ⟨F.fin 15 false, F.fin 10 false⟩⟩ 0
      = some (PointCartesian.polarForm ⟨F.fin 15 false, F.fin 0 false⟩) ∧
    Segment.step ⟨⟨F.fin 15 false, F.fin 0 false⟩, ⟨F.fin 15 false, F.fin 10 false⟩⟩ (-1)
      = none := by
  have htn : Segment.try_new ⟨F.fin 15 false, F.fin 0 false⟩ ⟨F.fin 15 false, F.fin 10 false⟩
      = .ok ⟨⟨F.fin 15 false, F.fin 0 false⟩, ⟨F.fin 15 false, F.fin 10 false⟩⟩ := by
    rw [Segment.try_new]
    norm_num [Segment.check_rotation_max, F.isNeg]
    rw [check_dead_zone_eq]
    norm_num [Segment.deadZoneDistance, F.sub, F.neg, F.add, F.mul, F.abs, F.powi2, F.sqrt, F.div,
      F.toReal, F.lt, MIN_RADIUS,
      real_sqrt_eval (by norm_num : (0:ℝ) ≤ 10) (by norm_num : (10:ℝ)^2 = 100)]
  have h := c1_segment_step _ _ _ htn
  exact ⟨h.2.2.1, h.2.1 (-1) (by norm_num)⟩

/-- C2 (amended): `Shape::arc` computes
`angle = (arc_length / point.radius).to_degrees() + point.theta` — the
arc length is converted to degrees at the point's radius, not taken as
radians — fails with `CrossesRotationMax` exactly when `angle > 360.0`,
and otherwise returns the arc with `Partial(angle)`; no lower bound is
checked, so a negative sweep (here arc length `-28` at radius `14`,
giving angle `-360/π` degrees) is accepted. -/
theorem c2_shape_arc_degrees :
    (∀ (p : PointPolar) (l : F),
      (F.gt (((l.div p.radius).toDegrees).add p.theta) (F.fin 360 false) →
        Shape.arc p l = .error .CrossesRotationMax) ∧
      (¬ F.gt (((l.div p.radius).toDegrees).add p.theta) (F.fin 360 false) →
        Shape.arc p l
          = .ok (Shape.Arc p (Rotation.Partial (((l.div p.radius).toDegrees).add p.theta))))) ∧
    Shape.arc ⟨F.fin 14 false, F.fin 0 false⟩ (F.fin 28 true)
      = .ok (Shape.Arc ⟨F.fin 14 false, F.fin 0 false⟩
          (Rotation.Partial (F.fin (360 / Real.pi) true))) := by
  constructor
  · intro p l
    constructor
    · intro h
      simp only [Shape.arc]
      rw [if_pos h]
    · intro h
      simp only [Shape.arc]
      rw [if_neg h]
  · have h1 : F.div (F.fin 28 true) (F.fin 14 false) = F.fin 2 true := by
      rw [F.div_fin_of_ne (by norm_num)]
      norm_num
    have h2 : F.toDegrees (F.fin 2 true) = F.fin (360 / Real.pi) true := by
      rw [F.toDegrees, F.mul]
      norm_num
      ring
    have h3 : F.add (F.fin (360 / Real.pi) true) (F.fin 0 false) = F.fin (360 / Real.pi) true :=
      F.add_fin_of_neg (by simp) (by positivity)
    simp only [Shape.arc, h1, h2, h3]
    rw [if_neg]
    rw [F.gt_fin_fin]
    simp only [F.toReal_fin_false, F.toReal_fin_true, not_lt]
    have hq : (0:ℝ) < 360 / Real.pi := by positivity
    linarith

/-- C2 counterexample: at the valid polar point `(radius 14, theta 0)`
with arc length `7`, the claim's angle `arc_length + theta = 7` exceeds
`2π`, yet `Shape::arc` does not fail with `CrossesRotationMax` (it
converts the arc length to degrees first). -/
theorem c2_shape_arc_counterexample :
    Shape.arc ⟨F.fin 14 false, F.fin 0 false⟩ (F.fin 7 false) ≠ .error .CrossesRotationMax ∧
    2 * Real.pi < (F.fin 7 false).toReal + (F.fin 0 false).toReal := by
  constructor
  · have h1 : F.div (F.fin 7 false) (F.fin 14 false) = F.fin (1/2) false := by
      rw [F.div_fin_of_ne (by norm_num)]
      norm_num
    have h2 : F.toDegrees (F.fin (1/2) false) = F.fin (90 / Real.pi) false := by
      rw [F.toDegrees, F.mul]
      norm_num
      ring
    have h3 : F.add (F.fin (90 / Real.pi) false) (F.fin 0 false) = F.fin (90 / Real.pi) false :=
      F.add_fin_of_pos (by simp) (by positivity)
    simp only [Shape.arc, h1, h2, h3]
    rw [if_neg]
    · simp
    · rw [F.gt_fin_fin]
      simp only [F.toReal_fin_false]
      rw [not_lt]
      calc (90 : ℝ) / Real.pi ≤ 90 / 3 :=
            div_le_div_of_nonneg_left (by norm_num) (by norm_num) Real.pi_gt_three.le
        _ ≤ 360 := by norm_num
  · simp only [F.toReal_fin_false]
    nlinarith [Real.pi_lt_d2]

/-- C3 (amended): `as_polar` computes `radius = hypot(x, y)` and
`theta = atan2(y, x)`; a radius above `MAX_RADIUS` fails first with
`AboveMaximumRadius`, then a radius below `MIN_RADIUS` fails with
`BelowMinimumRadius`, the errors carrying the exact radius and theta
computed; whenever the computed radius is not NaN, `as_polar` succeeds
if and only if `MIN_RADIUS ≤ radius ≤ MAX_RADIUS` (a NaN radius escapes
both comparisons and is accepted).  The point `(15, 0)` converts to
radius `15`. -/
theorem c3_as_polar_bounds :
    (∀ x y : F,
      (F.gt (F.hypot x y) MAX_RADIUS →
        PointCartesian.as_polar ⟨x, y⟩
          = .error (.AboveMaximumRadius (F.hypot x y) (F.atan2 y x))) ∧
      (¬ F.gt (F.hypot x y) MAX_RADIUS → F.lt (F.hypot x y) MIN_RADIUS →
        PointCartesian.as_polar ⟨x, y⟩
          = .error (.BelowMinimumRadius (F.hypot x y) (F.atan2 y x))) ∧
      (F.hypot x y ≠ F.nan →
        (PointCartesian.as_polar ⟨x, y⟩ = .ok ⟨F.hypot x y, F.atan2 y x⟩ ↔
          F.le MIN_RADIUS (F.hypot x y) ∧ F.le (F.hypot x y) MAX_RADIUS))) ∧
    PointCartesian.as_polar ⟨F.fin 15 false, F.fin 0 false⟩
      = .ok ⟨F.fin 15 false, F.atan2 (F.fin 0 false) (F.fin 15 false)⟩ := by
  constructor
  · intro x y
    refine ⟨?_, ?_, ?_⟩
    · intro hgt
      simp only [PointCartesian.as_polar, PointPolar.try_new]
      rw [if_pos hgt]
    · intro hgt hlt
      simp only [PointCartesian.as_polar, PointPolar.try_new]
      rw [if_neg hgt, if_pos hlt]
    · intro hnan
      constructor
      · intro hok
        simp only [PointCartesian.as_polar] at hok
        rw [try_new_ok_iff] at hok
        exact (bounds_iff _ hnan).mp ⟨hok.1, hok.2.1⟩
      · intro hb
        obtain ⟨hgt, hlt⟩ := (bounds_iff _ hnan).mpr hb
        simp only [PointCartesian.as_polar]
        rw [try_new_ok_iff]
        exact ⟨hgt, hlt, rfl⟩
  · have hh : F.hypot (F.fin 15 false) (F.fin 0 false) = F.fin 15 false := by
      rw [F.hypot]
      norm_num [F.mul, F.add, F.toReal]
      rw [F.sqrt_fin_of_pos (by norm_num) (real_sqrt_eval (by norm_num) (by norm_num : (15:ℝ)^2 = 225))]
    simp only [PointCartesian.as_polar, hh]
    rw [try_new_ok_iff]
    refine ⟨?_, ?_, rfl⟩
    · rw [MAX_RADIUS, F.gt_fin_fin]
      norm_num
    · rw [MIN_RADIUS, F.lt_fin_fin]
      norm_num

/-- C3 counterexample: at the Cartesian point `(NaN, 0)` the computed
radius is NaN; `as_polar` succeeds (both bound comparisons are false on
NaN) although the radius does not satisfy `MIN_RADIUS ≤ radius`, so
success is not equivalent to `MIN_RADIUS ≤ hypot(x, y) ≤ MAX_RADIUS` as
the claim states it. -/
theorem c3_as_polar_counterexample :
    PointCartesian.as_polar ⟨F.nan, F.fin 0 false⟩ = .ok ⟨F.nan, F.nan⟩ ∧
    ¬ F.le MIN_RADIUS (F.hypot F.nan (F.fin 0 false)) := by
  have hh : F.hypot F.nan (F.fin 0 false) = F.nan := by
    rw [F.hypot]
    simp only [F.mul_nan_left, F.add_nan_left]
    rfl
  constructor
  · simp only [PointCartesian.as_polar]
    have ha : F.atan2 (F.fin 0 false) F.nan = F.nan := rfl
    rw [hh, ha, try_new_ok_iff]
    exact ⟨F.lt_nan_right _, F.lt_nan_left _, rfl⟩
  · rw [hh]
    simp

/-- C4 (amended): every `PointPolar` produced by `PointPolar::try_new` —
and hence by `as_polar` and `Shape::circle`, the only constructing code
paths — carries the given radius and theta and passes both bound
comparisons; whenever its radius is not NaN this means
`MIN_RADIUS ≤ radius ≤ MAX_RADIUS`.  The radius `20` is accepted. -/
theorem c4_point_polar_invariant :
    (∀ (radius theta : F) (p : PointPolar), PointPolar.try_new radius theta = .ok p →
      p.radius = radius ∧ p.theta = theta ∧
      ¬ F.gt p.radius MAX_RADIUS ∧ ¬ F.lt p.radius MIN_RADIUS ∧
      (p.radius ≠ F.nan → F.le MIN_RADIUS p.radius ∧ F.le p.radius MAX_RADIUS)) ∧
    (∀ (q : PointCartesian) (p : PointPolar), q.as_polar = .ok p →
      ¬ F.gt p.radius MAX_RADIUS ∧ ¬ F.lt p.radius MIN_RADIUS) ∧
    (∀ (radius : F) (p : PointPolar) (rot : Rotation), Shape.circle radius = .ok (.Arc p rot) →
      ¬ F.gt p.radius MAX_RADIUS ∧ ¬ F.lt p.radius MIN_RADIUS) ∧
    PointPolar.try_new (F.fin 20 false) (F.fin 0 false) = .ok ⟨F.fin 20 false, F.fin 0 false⟩ := by
  refine ⟨?_, ?_, ?_, ?_⟩
  · intro radius theta p h
    rw [try_new_ok_iff] at h
    obtain ⟨hgt, hlt, hp⟩ := h
    subst hp
    exact ⟨rfl, rfl, hgt, hlt, fun hn => (bounds_iff _ hn).mp ⟨hgt, hlt⟩⟩
  · intro q p h
    simp only [PointCartesian.as_polar] at h
    rw [try_new_ok_iff] at h
    obtain ⟨hgt, hlt, hp⟩ := h
    subst hp
    exact ⟨hgt, hlt⟩
  · intro radius p rot h
    rw [Shape.circle] at h
    cases htn : PointPolar.try_new radius (F.fin 0 false) with
    | error e => rw [htn] at h; exact absurd h (by simp)
    | ok pt =>
      rw [htn] at h
      simp only [Except.ok.injEq] at h
      obtain ⟨hpt, -⟩ := Shape.Arc.inj h
      rw [try_new_ok_iff] at htn
      obtain ⟨hgt, hlt, hp⟩ := htn
      subst hp hpt
      exact ⟨hgt, hlt⟩
  · rw [try_new_ok_iff]
    refine ⟨?_, ?_, rfl⟩
    · rw [MAX_RADIUS, F.gt_fin_fin]
      norm_num
    · rw [MIN_RADIUS, F.lt_fin_fin]
      norm_num

/-- C4 counterexample: `PointPolar::try_new(NaN, 0)` succeeds — NaN is
neither `> MAX_RADIUS` nor `< MIN_RADIUS` — yielding a `PointPolar`
whose radius does not satisfy `MIN_RADIUS ≤ radius`, so a value
violating the claimed invariant is obtainable. -/
theorem c4_point_polar_counterexample :
    PointPolar.try_new F.nan (F.fin 0 false) = .ok ⟨F.nan, F.fin 0 false⟩ ∧
    ¬ F.le MIN_RADIUS F.nan := by
  constructor
  · rw [try_new_ok_iff]
    exact ⟨F.lt_nan_right _, F.lt_nan_left _, rfl⟩
  · simp

/-- C5: the rotation-max check fails with `CrossesRotationMax` exactly
when neither endpoint's x-coordinate is sign-negative and the endpoints'
y-coordinates have opposite signs; a segment entirely in the negative-x
half-plane, or one whose endpoints share a y-sign, always passes the
check (which never inspects the dead zone). -/
theorem c5_check_rotation_max (a b : PointCartesian) :
    ((Segment.mk a b).check_rotation_max = .error .CrossesRotationMax ↔
      (a.x.isNeg = false ∧ b.x.isNeg = false ∧ a.y.isNeg ≠ b.y.isNeg)) ∧
    (a.x.isNeg = true → b.x.isNeg = true →
      (Segment.mk a b).check_rotation_max = .ok (Segment.mk a b)) ∧
    (a.y.isNeg = b.y.isNeg →
      (Segment.mk a b).check_rotation_max = .ok (Segment.mk a b)) := by
  cases hax : a.x.isNeg <;> cases hbx : b.x.isNeg <;>
    cases hay : a.y.isNeg <;> cases hby : b.y.isNeg <;>
    simp [Segment.check_rotation_max, hax, hbx, hay, hby]

/-- C6: for endpoints that pass the rotation-max check, `try_new` fails
with `CrossesDeadZone` carrying the point-to-line distance
`|((x_a − x_b)·y_a + (y_b − y_a)·x_a)| / sqrt((x_b − x_a)² + (y_a − y_b)²)`
exactly when that distance is below `MIN_RADIUS`; the distance is to the
infinite line, so the segment from `(20, 13)` to `(21, 13)` — whose every
point is at distance at least 14 from the origin — is still rejected with
distance `13`. -/
theorem c6_check_dead_zone :
    (∀ a b : PointCartesian, (Segment.mk a b).check_rotation_max = .ok (Segment.mk a b) →
      ((Segment.try_new a b = .error (.CrossesDeadZone ((Segment.mk a b).deadZoneDistance)) ↔
        F.lt ((Segment.mk a b).deadZoneDistance) MIN_RADIUS) ∧
       (¬ F.lt ((Segment.mk a b).deadZoneDistance) MIN_RADIUS →
        Segment.try_new a b = .ok (Segment.mk a b)))) ∧
    (Segment.try_new ⟨F.fin 20 false, F.fin 13 false⟩ ⟨F.fin 21 false, F.fin 13 false⟩
      = .error (.CrossesDeadZone (F.fin 13 false))) ∧
    (∀ t : ℝ, 0 ≤ t → t ≤ 1 →
      MIN_RADIUS.toReal ≤ Real.sqrt (((20:ℝ) + t * (21 - 20)) ^ 2 + (13 + t * (13 - 13)) ^ 2)) := by
  refine ⟨?_, ?_, ?_⟩
  · intro a b hrot
    rw [try_new_of_rot_ok hrot, check_dead_zone_eq]
    by_cases hd : ((Segment.mk a b).deadZoneDistance).lt MIN_RADIUS
    · rw [if_pos hd]
      simp [hd]
    · rw [if_neg hd]
      simp [hd]
  · rw [Segment.try_new]
    norm_num [Segment.check_rotation_max, F.isNeg]
    rw [check_dead_zone_eq]
    norm_num [Segment.deadZoneDistance, F.sub, F.neg, F.add, F.mul, F.abs, F.powi2, F.sqrt, F.div,
      F.toReal, F.lt, MIN_RADIUS, Real.sqrt_one]
  · intro t h0 h1
    have h14 : MIN_RADIUS.toReal = Real.sqrt 196 := by
      rw [real_sqrt_eval (by norm_num) (by norm_num : (14:ℝ)^2 = 196)]
      rfl
    rw [h14]
    apply Real.sqrt_le_sqrt
    nlinarith

/-- C7: `Segment::try_new` runs the rotation-max check first and the
dead-zone check second, short-circuiting: whenever the rotation-max check
fails, `try_new` returns `CrossesRotationMax`, and a `CrossesDeadZone`
result is only possible for inputs that passed the rotation-max check;
the segment from `(1, 5)` to `(1, -5)` violates both conditions and gets
`CrossesRotationMax`. -/
theorem c7_check_order :
    (∀ a b : PointCartesian,
      (Segment.mk a b).check_rotation_max = .error .CrossesRotationMax →
      Segment.try_new a b = .error .CrossesRotationMax) ∧
    (∀ (a b : PointCartesian) (d : F), Segment.try_new a b = .error (.CrossesDeadZone d) →
      (Segment.mk a b).check_rotation_max = .ok (Segment.mk a b)) ∧
    (Segment.try_new ⟨F.fin 1 false, F.fin 5 false⟩ ⟨F.fin 1 false, F.fin 5 true⟩
      = .error .CrossesRotationMax ∧
     F.lt ((Segment.mk ⟨F.fin 1 false, F.fin 5 false⟩ ⟨F.fin 1 false, F.fin 5 true⟩).deadZoneDistance)
      MIN_RADIUS) := by
  refine ⟨?_, ?_, ?_, ?_⟩
  · intro a b h
    rw [Segment.try_new, h]
  · intro a b d h
    rcases check_rotation_max_cases (Segment.mk a b) with hc | hc
    · exact hc
    · rw [Segment.try_new, hc] at h
      exact absurd h (by simp)
  · rw [Segment.try_new]
    norm_num [Segment.check_rotation_max, F.isNeg]
  · norm_num [Segment.deadZoneDistance, F.sub, F.neg, F.add, F.mul, F.abs, F.powi2, F.sqrt, F.div,
      F.toReal, F.lt, MIN_RADIUS,
      real_sqrt_eval (by norm_num : (0:ℝ) ≤ 10) (by norm_num : (10:ℝ)^2 = 100)]

/-- C8: `Segment::try_new` checks no radius bound — its only failures are
`CrossesRotationMax` and `CrossesDeadZone` — so the segment from
`(100, 20)` to `(100, 30)` is accepted although its endpoint `(100, 20)`
has radius `sqrt(10400) > MAX_RADIUS`. -/
theorem c8_no_radius_check :
    (∀ (a b : PointCartesian) (e : OutOfBoundsError), Segment.try_new a b = .error e →
      e = .CrossesRotationMax ∨ ∃ d, e = .CrossesDeadZone d) ∧
    (Segment.try_new ⟨F.fin 100 false, F.fin 20 false⟩ ⟨F.fin 100 false, F.fin 30 false⟩
      = .ok ⟨⟨F.fin 100 false, F.fin 20 false⟩, ⟨F.fin 100 false, F.fin 30 false⟩⟩) ∧
    F.gt (F.hypot (F.fin 100 false) (F.fin 20 false)) MAX_RADIUS := by
  refine ⟨?_, ?_, ?_⟩
  · intro a b e h
    rcases check_rotation_max_cases (Segment.mk a b) with hc | hc
    · rw [try_new_of_rot_ok hc, check_dead_zone_eq] at h
      by_cases hd : ((Segment.mk a b).deadZoneDistance).lt MIN_RADIUS
      · rw [if_pos hd] at h
        right
        exact ⟨_, (Except.error.inj h).symm⟩
      · rw [if_neg hd] at h
        exact absurd h (by simp)
    · rw [Segment.try_new, hc] at h
      left
      exact (Except.error.inj h).symm
  · rw [Segment.try_new]
    norm_num [Segment.check_rotation_max, F.isNeg]
    rw [check_dead_zone_eq]
    norm_num [Segment.deadZoneDistance, F.sub, F.neg, F.add, F.mul, F.abs, F.powi2, F.sqrt, F.div,
      F.toReal, F.lt, MIN_RADIUS,
      real_sqrt_eval (by norm_num : (0:ℝ) ≤ 10) (by norm_num : (10:ℝ)^2 = 100)]
  · have h : F.hypot (F.fin 100 false) (F.fin 20 false) = F.fin (Real.sqrt 10400) false := by
      rw [F.hypot]
      norm_num [F.mul, F.add, F.toReal]
      rw [F.sqrt_fin_of_pos (by norm_num) rfl]
    rw [h, MAX_RADIUS, F.gt_fin_fin]
    simp only [F.toReal_fin_false]
    calc (31:ℝ) = Real.sqrt 961 := (real_sqrt_eval (by norm_num) (by norm_num)).symm
      _ < Real.sqrt 10400 := Real.sqrt_lt_sqrt (by norm_num) (by norm_num)

/-- C9: for every Cartesian point `p`, `Segment::try_new(p, p)` succeeds:
the y-sign bits are equal so the rotation-max check passes, and the
dead-zone formula evaluates to `0/0 = NaN` (so for finite coordinates —
in particular for `p = (0, 0)`, shown concretely), for which
`NaN < MIN_RADIUS` is false. -/
theorem c9_degenerate_segment :
    (∀ p : PointCartesian, Segment.try_new p p = .ok (Segment.mk p p)) ∧
    (Segment.mk ⟨F.fin 0 false, F.fin 0 false⟩ ⟨F.fin 0 false, F.fin 0 false⟩).deadZoneDistance
      = F.nan := by
  have hdist : ∀ p : PointCartesian, (Segment.mk p p).deadZoneDistance = F.nan := by
    intro p
    rw [Segment.deadZoneDistance]
    cases px : p.x <;> cases py : p.y <;>
      simp only [F.sub_self_fin, F.sub_self_inf, F.sub_self_nan] <;>
      norm_num [F.mul, F.add, F.abs, F.powi2, F.sqrt, F.div, F.toReal]
  constructor
  · intro p
    have hrot : (Segment.mk p p).check_rotation_max = .ok (Segment.mk p p) := by
      rw [Segment.check_rotation_max]
      simp
    rw [Segment.try_new, hrot]
    show (Segment.mk p p).check_dead_zone = Except.ok (Segment.mk p p)
    rw [check_dead_zone_eq, hdist]
    simp [F.lt]
  · exact hdist _

/-- C10: the rotation-max check reads IEEE sign bits, not numeric signs:
`try_new((1, 0.0), (1, -0.0))` fails with `CrossesRotationMax` although
both y-values are numerically zero, while `try_new((-0.0, 30), (40, -0.0))`
passes the check (and succeeds) because `x = -0.0` counts as
negative-x, despite the opposite y sign bits. -/
theorem c10_sign_bit_semantics :
    (Segment.try_new ⟨F.fin 1 false, F.fin 0 false⟩ ⟨F.fin 1 false, F.fin 0 true⟩
      = .error .CrossesRotationMax) ∧
    (F.fin 0 true).toReal = (F.fin 0 false).toReal ∧
    (F.fin 0 true).isNeg = true ∧
    (Segment.try_new ⟨F.fin 0 true, F.fin 30 false⟩ ⟨F.fin 40 false, F.fin 0 true⟩
      = .ok ⟨⟨F.fin 0 true, F.fin 30 false⟩, ⟨F.fin 40 false, F.fin 0 true⟩⟩) := by
  refine ⟨?_, by simp, rfl, ?_⟩
  · rw [Segment.try_new]
    norm_num [Segment.check_rotation_max, F.isNeg]
  · rw [Segment.try_new]
    norm_num [Segment.check_rotation_max, F.isNeg]
    rw [check_dead_zone_eq]
    norm_num [Segment.deadZoneDistance, F.sub, F.neg, F.add, F.mul, F.abs, F.powi2, F.sqrt, F.div,
      F.toReal, F.lt, MIN_RADIUS,
      real_sqrt_eval (by norm_num : (0:ℝ) ≤ 50) (by norm_num : (50:ℝ)^2 = 2500)]
